/-
Verification of the Coldwire-Desktop command-line argument parser
(src/main.rs) against its natural-language specification.

The program is embedded shallowly: Rust `String`/`&str` values become
`List Char` (so byte lengths are computed with `utf8Len`, the sum of the
UTF-8 sizes of the characters), `Result<T, String>` becomes `RustResult`,
and `env::args` is modelled by passing the token list explicitly to
`parse_args`.  `u16::from_str` (Rust standard library) is modelled by
`parseU16`: an optional leading '+', then ASCII digits, value ≤ 65535.
-/
import Mathlib

namespace Coldwire

/-- Rust strings, viewed as their character sequences. -/
abbrev Str := List Char

/-- Conversion from a Lean string literal to the embedding's string type. -/
abbrev str (s : String) : Str := s.data

/-- Number of UTF-8 bytes of a string; this is what Rust's `str::len` returns. -/
def utf8Len (s : Str) : Nat := (s.map Char.utf8Size).sum

/-- Embedding of Rust's `Result<A, String>`. -/
inductive RustResult (α : Type) where
  | Err (e : Str)
  | Ok (v : α)
deriving DecidableEq

/-- `enum ProxyType` from src/main.rs. -/
inductive ProxyType where
  | Http
  | Socks4
  | Socks5
deriving DecidableEq

/-- `struct ProxyInfo` from src/main.rs (`port: u16` becomes a `Nat`;
`parseU16` only produces values ≤ 65535). -/
structure ProxyInfo where
  ptype : ProxyType
  host : Str
  port : Nat
  username : Option Str
  password : Option Str
deriving DecidableEq

/-- `struct Config` from src/main.rs. -/
structure Config where
  server_url : Str
  state_file_path : Str
  proxy : Option ProxyInfo
  debug : Bool
deriving DecidableEq

/-- `DEFAULT_PROXY_ADDR` from src/main.rs. -/
def DEFAULT_PROXY_ADDR : Str := str "127.0.0.1:9050"

/-- The mutable locals of `parse_args` accumulated while scanning tokens
(the "draft" of §3 of the spec), with their initial values as defaults. -/
structure Draft where
  server_url : Option Str := none
  state_file_path : Option Str := none
  use_proxy : Bool := false
  proxy_type : ProxyType := ProxyType.Socks5
  proxy_addr : Option Str := none
  proxy_user : Option Str := none
  proxy_pass : Option Str := none
  debug : Bool := false
deriving DecidableEq

/-- Initial draft: the values of the locals before the `while` loop. -/
def initDraft : Draft := {}

/-- `pat.isPrefixOf s`, written out recursively: Rust `str::starts_with`. -/
def startsWithL : Str → Str → Bool
  | [], _ => true
  | _ :: _, [] => false
  | p :: ps, c :: cs => p == c && startsWithL ps cs

/-- Rust `s.splitn(2, pat)` for a nonempty pattern: split at the first
occurrence of `pat`, returning the parts before and after it, or `none`
when `pat` does not occur (`parts.len() != 2` in the source). -/
def splitOnFirst (pat : Str) : Str → Option (Str × Str)
  | [] => if startsWithL pat [] then some ([], ([].drop pat.length : Str)) else none
  | c :: cs =>
    if startsWithL pat (c :: cs) then some ([], (c :: cs).drop pat.length)
    else (splitOnFirst pat cs).map (fun pr => (c :: pr.1, pr.2))

/-- Rust `s.find(stop)` followed by slicing: split at the first occurrence
of the character `stop`, returning the parts strictly before and after it. -/
def splitAtFirst (stop : Char) : Str → Option (Str × Str)
  | [] => none
  | c :: cs =>
    if c = stop then some ([], cs)
    else (splitAtFirst stop cs).map (fun pr => (c :: pr.1, pr.2))

/-- Rust `s.rfind(':')` followed by slicing (equally, `s.rsplitn(2, ':')`):
split at the last colon, returning the parts strictly before and after it. -/
def rsplitColon : Str → Option (Str × Str)
  | [] => none
  | c :: cs =>
    match rsplitColon cs with
    | some pr => some (c :: pr.1, pr.2)
    | none => if c = ':' then some ([], cs) else none

/-- The decimal digit character for `n % 10`. -/
def digCh : Nat → Char
  | 0 => '0'
  | 1 => '1'
  | 2 => '2'
  | 3 => '3'
  | 4 => '4'
  | 5 => '5'
  | 6 => '6'
  | 7 => '7'
  | 8 => '8'
  | _ => '9'

/-- Fuel-driven decimal rendering (most significant digit first). -/
def natDigitsAux : Nat → Nat → Str
  | 0, _ => []
  | fuel + 1, n =>
    if n < 10 then [digCh n] else natDigitsAux fuel (n / 10) ++ [digCh (n % 10)]

/-- Decimal rendering of a natural number, as produced by Rust's `{}`
formatting of an integer (no sign, no leading zeros, `"0"` for zero). -/
def natDigits (n : Nat) : Str := natDigitsAux (n + 1) n

/-- Numeric value of a digit string, accumulated left to right. -/
def digitsVal (s : Str) : Nat := s.foldl (fun a c => a * 10 + (c.toNat - 48)) 0

/-- Strip one leading '+', as `u16::from_str` does. -/
def stripPlus : Str → Str
  | '+' :: r => r
  | s => s

/-- Model of Rust `s.parse::<u16>()`: an optional leading '+', then a
nonempty run of ASCII digits whose value fits in 16 bits; anything else
(including a leading '-') fails. -/
def parseU16 (s : Str) : Option Nat :=
  let t := stripPlus s
  if t = [] then none
  else if t.all Char.isDigit then
    if digitsVal t ≤ 65535 then some (digitsVal t) else none
  else none

/-- The character class of line 221 of src/main.rs:
ASCII alphanumeric, `'.'`, or `'-'`. -/
def hostChar (c : Char) : Bool := c.isAlphanum || c == '.' || c == '-'

/-- Lines 212–227 of src/main.rs: the hostname checks of `clean_server_url`,
returning the error they raise, if any. -/
def hostErr (host : Str) : Option Str :=
  if host = [] then some (str "hostname empty")
  else if utf8Len host > 255 then some (str "hostname too long (max 255 chars)")
  else if host ≠ str "localhost" then
    if !(host.all hostChar) then some (str "hostname contains invalid characters")
    else if !(host.contains '.') then
      some (str "hostname must contain a dot unless 'localhost'")
    else none
  else none

/-- Lines 237 and 240 of src/main.rs: the reassembled URL
`format!("{}://{}:{}", scheme, host, port)` resp. `format!("{}://{}", scheme, host)`. -/
def renderURL (scheme host : Str) (portOpt : Option Nat) : Str :=
  match portOpt with
  | some p => scheme ++ str "://" ++ host ++ ':' :: natDigits p
  | none => scheme ++ str "://" ++ host

/-- Lines 205–240 of src/main.rs: split the netloc at its last colon into
`host[:port]`, run the hostname checks, validate the port if one was found,
and reassemble the URL. -/
def validateHostPort (scheme netloc : Str) : RustResult Str :=
  match rsplitColon netloc with
  | some hp =>
    match hostErr hp.1 with
    | some e => .Err e
    | none =>
      if hp.2 = [] then .Err (str "port is empty")
      else
        match parseU16 hp.2 with
        | none => .Err (str "port is not a valid number")
        | some p => .Ok (renderURL scheme hp.1 (some p))
  | none =>
    match hostErr netloc with
    | some e => .Err e
    | none => .Ok (renderURL scheme netloc none)

/-- Lines 188–191 of src/main.rs: if the lowercased URL starts with neither
`http://` nor `https://`, prepend `https://` to the original string. -/
def prependScheme (url : Str) : Str :=
  if !(startsWithL (str "http://") (url.map Char.toLower)) &&
     !(startsWithL (str "https://") (url.map Char.toLower)) then
    str "https://" ++ url
  else url

/-- `clean_server_url` from src/main.rs: length check, scheme defaulting,
scheme split and check, netloc extraction (`rest.split('/').next()`),
then host/port validation and reassembly. -/
def clean_server_url (url0 : Str) : RustResult Str :=
  if utf8Len url0 > 512 then .Err (str "URL too long (max 512 chars)")
  else
    match splitOnFirst (str "://") (prependScheme url0) with
    | none => .Err (str "missing scheme")
    | some sr =>
      if sr.1 ≠ str "http" ∧ sr.1 ≠ str "https" then
        .Err (str "unsupported scheme '" ++ sr.1 ++ str "'")
      else
        validateHostPort sr.1 (sr.2.takeWhile (fun c => !(c == '/')))

/-- `parse_proxy_addr` from src/main.rs: bracketed (`[ipv6]:port`) branch
when the string starts with `'['`, otherwise split at the last colon into
`(host, port)`, both required nonempty. -/
def parse_proxy_addr (s : Str) : RustResult (Str × Nat) :=
  match s with
  | '[' :: t =>
    match splitAtFirst ']' t with
    | none => .Err (str "missing closing ']' for IPv6")
    | some hr =>
      match hr.2 with
      | ':' :: portStr =>
        if portStr = [] then .Err (str "Port is empty")
        else
          match parseU16 portStr with
          | none => .Err (str "Port is not a valid number")
          | some p => .Ok (hr.1, p)
      | _ => .Err (str "Missing ':' after IPv6 address")
  | _ =>
    match rsplitColon s with
    | some hp =>
      if hp.1 = [] ∨ hp.2 = [] then .Err (str "Empty host or port")
      else
        match parseU16 hp.2 with
        | none => .Err (str "Port is not a valid number")
        | some p => .Ok (hp.1, p)
    | none =>
      -- `rsplitn` yields a single part here: `port_str = s`, `host = ""`.
      .Err (str "Empty host or port")

/-- The `while let Some(arg) = args.next()` loop of `parse_args`
(lines 57–131 of src/main.rs): dispatch on the token, consuming the next
token as a value where the flag requires one. -/
def scanArgs : Draft → List Str → RustResult Draft
  | d, [] => .Ok d
  | d, a :: rest =>
    if a = str "--server" then
      match rest with
      | v :: rest2 => scanArgs { d with server_url := some v } rest2
      | [] => .Err (str "--server requires a value")
    else if a = str "--state-file" then
      match rest with
      | v :: rest2 => scanArgs { d with state_file_path := some v } rest2
      | [] => .Err (str "--state-file requires a file name / path")
    else if a = str "--use-proxy" then
      scanArgs { d with use_proxy := true } rest
    else if a = str "--proxy-type" then
      match rest with
      | v :: rest2 =>
        if v.map Char.toUpper = str "HTTP" then
          scanArgs { d with proxy_type := ProxyType.Http } rest2
        else if v.map Char.toUpper = str "SOCKS4" then
          scanArgs { d with proxy_type := ProxyType.Socks4 } rest2
        else if v.map Char.toUpper = str "SOCKS5" then
          scanArgs { d with proxy_type := ProxyType.Socks5 } rest2
        else
          .Err (str "Invalid proxy type: " ++ v.map Char.toUpper ++
                str " (allowed: HTTP, SOCKS4, SOCKS5)")
      | [] => .Err (str "--proxy-type requires a value")
    else if a = str "--proxy-addr" then
      match rest with
      | v :: rest2 => scanArgs { d with proxy_addr := some v } rest2
      | [] => .Err (str "--proxy-addr requires a value")
    else if a = str "--proxy-user" then
      match rest with
      | v :: rest2 => scanArgs { d with proxy_user := some v } rest2
      | [] => .Err (str "--proxy-user requires a value")
    else if a = str "--proxy-pass" then
      match rest with
      | v :: rest2 => scanArgs { d with proxy_pass := some v } rest2
      | [] => .Err (str "--proxy-pass requires a value")
    else if a = str "--debug" then
      scanArgs { d with debug := true } rest
    else if a = str "--help" ∨ a = str "-h" then
      .Err (str "help")
    else
      .Err (str "Unknown argument: " ++ a)

/-- Lines 133–172 of src/main.rs: the post-scan validation sequence of
`parse_args` — server URL, then state-file presence, then (when requested)
the proxy address — and assembly of the final `Config`. -/
def finishParse (d : Draft) : RustResult Config :=
  match d.server_url with
  | none => .Err (str "--server is required")
  | some s =>
    match clean_server_url s with
    | .Err e => .Err e
    | .Ok u =>
      match d.state_file_path with
      | none => .Err (str "--state-file is required")
      | some p =>
        if d.use_proxy then
          match parse_proxy_addr (d.proxy_addr.getD DEFAULT_PROXY_ADDR) with
          | .Err e =>
            .Err (str "Invalid proxy address '" ++ d.proxy_addr.getD DEFAULT_PROXY_ADDR ++
                  str "': " ++ e)
          | .Ok hp =>
            .Ok ⟨u, p, some ⟨d.proxy_type, hp.1, hp.2, d.proxy_user, d.proxy_pass⟩, d.debug⟩
        else
          .Ok ⟨u, p, none, d.debug⟩

/-- `parse_args` from src/main.rs, as a function of the command-line tokens
(program name already excluded, as `env::args().skip(1)` does). -/
def parse_args (argsList : List Str) : RustResult Config :=
  match scanArgs initDraft argsList with
  | .Err e => .Err e
  | .Ok d => finishParse d

/-! ### Helper lemmas about the string primitives -/

theorem startsWithL_append_self (p r : Str) : startsWithL p (p ++ r) = true := by
  induction p with
  | nil => rfl
  | cons c cs ih => simp [startsWithL, ih]

theorem startsWithL_ex {p s : Str} (h : startsWithL p s = true) : ∃ r, s = p ++ r := by
  induction p generalizing s with
  | nil => exact ⟨s, rfl⟩
  | cons c cs ih =>
    cases s with
    | nil => simp [startsWithL] at h
    | cons a as =>
      simp only [startsWithL, Bool.and_eq_true, beq_iff_eq] at h
      obtain ⟨rfl, h2⟩ := h
      obtain ⟨r, rfl⟩ := ih h2
      exact ⟨r, rfl⟩

theorem takeWhile_eq_self {p : Char → Bool} {l : Str} (h : ∀ c ∈ l, p c = true) :
    l.takeWhile p = l := by
  induction l with
  | nil => rfl
  | cons a as ih =>
    simp [List.takeWhile_cons, h a (by simp), ih (fun c hc => h c (by simp [hc]))]

theorem splitOnFirst_sep {pre rest : Str} (hpre : (':' : Char) ∉ pre) :
    splitOnFirst (str "://") (pre ++ (str "://" ++ rest)) = some (pre, rest) := by
  have hpat : str "://" = ':' :: '/' :: '/' :: [] := rfl
  induction pre with
  | nil =>
    rw [List.nil_append, hpat]
    simp [splitOnFirst, startsWithL]
  | cons c pre ih =>
    have hc : c ≠ ':' := fun hc => hpre (by simp [hc])
    rw [List.cons_append]
    rw [hpat] at ih ⊢
    simp only [splitOnFirst]
    rw [if_neg, ih (fun hm => hpre (by simp [hm]))]
    · rfl
    · intro hcond
      simp only [startsWithL, Bool.and_eq_true, beq_iff_eq] at hcond
      exact hc hcond.1.symm

theorem splitAtFirst_eq_none {stop : Char} {s : Str} (h : stop ∉ s) :
    splitAtFirst stop s = none := by
  induction s with
  | nil => rfl
  | cons c cs ih =>
    have hc : ¬(c = stop) := fun hc => h (by simp [hc])
    simp only [splitAtFirst, if_neg hc, ih (fun hm => h (by simp [hm]))]
    rfl

theorem splitAtFirst_append {stop : Char} {h r : Str} (hh : stop ∉ h) :
    splitAtFirst stop (h ++ stop :: r) = some (h, r) := by
  induction h with
  | nil => simp [splitAtFirst]
  | cons c cs ih =>
    have hc : ¬(c = stop) := fun hc => hh (by simp [hc])
    rw [List.cons_append]
    simp only [splitAtFirst, if_neg hc, ih (fun hm => hh (by simp [hm]))]
    rfl

theorem splitAtFirst_some {stop : Char} {s h r : Str}
    (he : splitAtFirst stop s = some (h, r)) : s = h ++ stop :: r ∧ stop ∉ h := by
  induction s generalizing h r with
  | nil => simp [splitAtFirst] at he
  | cons c cs ih =>
    simp only [splitAtFirst] at he
    by_cases hc : c = stop
    · rw [if_pos hc] at he
      obtain ⟨rfl, rfl⟩ : h = [] ∧ r = cs := by
        constructor <;> · injection he with he2; injection he2 with hx hy; simp_all
      simp [hc]
    · rw [if_neg hc] at he
      cases hsp : splitAtFirst stop cs with
      | none => rw [hsp] at he; simp at he
      | some pr =>
        rw [hsp] at he
        obtain ⟨h1, r1⟩ := pr
        have he2 : some ((c :: h1, r1) : Str × Str) = some (h, r) := he
        obtain ⟨rfl, rfl⟩ : h = c :: h1 ∧ r = r1 := by
          injection he2 with he3; injection he3 with hx hy; simp_all
        obtain ⟨hs, hm⟩ := ih hsp
        refine ⟨by rw [hs]; rfl, ?_⟩
        simp only [List.mem_cons, not_or]
        exact ⟨fun hx => hc hx.symm, hm⟩

theorem rsplitColon_eq_none {s : Str} (h : (':' : Char) ∉ s) : rsplitColon s = none := by
  induction s with
  | nil => rfl
  | cons c cs ih =>
    have hc : ¬(c = ':') := fun hc => h (by simp [hc])
    simp only [rsplitColon, ih (fun hm => h (by simp [hm])), if_neg hc]

theorem rsplitColon_append {h p : Str} (hp : (':' : Char) ∉ p) :
    rsplitColon (h ++ ':' :: p) = some (h, p) := by
  induction h with
  | nil =>
    simp only [List.nil_append, rsplitColon, rsplitColon_eq_none hp]
    rfl
  | cons c cs ih =>
    rw [List.cons_append]
    simp only [rsplitColon, ih]

theorem rsplitColon_none_mem {s : Str} (h : rsplitColon s = none) : (':' : Char) ∉ s := by
  induction s with
  | nil => simp
  | cons c cs ih =>
    simp only [rsplitColon] at h
    cases hr : rsplitColon cs with
    | some pr => rw [hr] at h; simp at h
    | none =>
      rw [hr] at h
      by_cases hc : c = ':'
      · rw [if_pos hc] at h; simp at h
      · rw [if_neg hc] at h
        simp only [List.mem_cons, not_or]
        exact ⟨fun hx => hc hx.symm, ih hr⟩

theorem rsplitColon_some {s h p : Str} (he : rsplitColon s = some (h, p)) :
    s = h ++ ':' :: p ∧ (':' : Char) ∉ p := by
  induction s generalizing h p with
  | nil => simp [rsplitColon] at he
  | cons c cs ih =>
    simp only [rsplitColon] at he
    cases hr : rsplitColon cs with
    | some pr =>
      rw [hr] at he
      obtain ⟨h1, p1⟩ := pr
      obtain ⟨rfl, rfl⟩ : h = c :: h1 ∧ p = p1 := by
        injection he with he2; injection he2 with hx hy; simp_all
      obtain ⟨hs, hm⟩ := ih hr
      exact ⟨by rw [hs]; rfl, hm⟩
    | none =>
      rw [hr] at he
      by_cases hc : c = ':'
      · rw [if_pos hc] at he
        obtain ⟨rfl, rfl⟩ : h = [] ∧ p = cs := by
          constructor <;> · injection he with he2; injection he2 with hx hy; simp_all
        exact ⟨by simp [hc], rsplitColon_none_mem hr⟩
      · rw [if_neg hc] at he
        simp at he

/-! ### Helper lemmas about characters and decimal digits -/

theorem ofNat_add32_lower (n : Nat) (h1 : 65 ≤ n) (h2 : n ≤ 90) :
    97 ≤ (Char.ofNat (n + 32)).toNat ∧ (Char.ofNat (n + 32)).toNat ≤ 122 := by
  interval_cases n <;> decide

theorem toLower_eq_fix {c t : Char} (ht : t.toNat < 97) (htl : Char.toLower c = t) :
    c = t := by
  simp only [Char.toLower] at htl
  split at htl
  · exfalso
    next hcond =>
      have hb := (ofNat_add32_lower c.toNat hcond.1 hcond.2).1
      rw [htl] at hb
      omega
  · exact htl

theorem isDigit_ne_of_ne {c t : Char} (hd : c.isDigit = true) (ht : t.isDigit = false) :
    c ≠ t := by
  rintro rfl
  rw [hd] at ht
  cases ht

theorem digCh_isDigit {k : Nat} (h : k < 10) : (digCh k).isDigit = true := by
  interval_cases k <;> decide

theorem digCh_toNat {k : Nat} (h : k < 10) : (digCh k).toNat = 48 + k := by
  interval_cases k <;> decide

theorem digCh_utf8Size {k : Nat} (h : k < 10) : (digCh k).utf8Size = 1 := by
  interval_cases k <;> decide

theorem natDigitsAux_irrel : ∀ f1 f2 n, n < f1 → n < f2 →
    natDigitsAux f1 n = natDigitsAux f2 n := by
  intro f1
  induction f1 with
  | zero => intro f2 n h1; omega
  | succ f ih =>
    intro f2 n h1 h2
    cases f2 with
    | zero => omega
    | succ g =>
      simp only [natDigitsAux]
      by_cases hn : n < 10
      · simp [hn]
      · have hd : n / 10 < n := Nat.div_lt_self (by omega) (by omega)
        simp only [hn, if_false]
        rw [ih g (n / 10) (by omega) (by omega)]

theorem natDigits_unfold (n : Nat) :
    natDigits n = if n < 10 then [digCh n] else natDigits (n / 10) ++ [digCh (n % 10)] := by
  by_cases hn : n < 10
  · simp [natDigits, natDigitsAux, hn]
  · have hd : n / 10 < n := Nat.div_lt_self (by omega) (by omega)
    rw [if_neg hn]
    show natDigitsAux (n + 1) n = natDigits (n / 10) ++ [digCh (n % 10)]
    simp only [natDigitsAux, hn, if_false]
    congr 1
    exact natDigitsAux_irrel n (n / 10 + 1) (n / 10) (by omega) (by omega)

theorem natDigits_ne_nil (n : Nat) : natDigits n ≠ [] := by
  rw [natDigits_unfold]
  by_cases hn : n < 10 <;> simp [hn]

theorem natDigits_all_digit (n : Nat) : ∀ c ∈ natDigits n, c.isDigit = true := by
  induction n using Nat.strong_induction_on with
  | _ n ih =>
    rw [natDigits_unfold]
    by_cases hn : n < 10
    · simp only [hn, if_true, List.mem_singleton]
      rintro c rfl
      exact digCh_isDigit hn
    · have hd : n / 10 < n := Nat.div_lt_self (by omega) (by omega)
      simp only [hn, if_false, List.mem_append, List.mem_singleton]
      rintro c (hc | rfl)
      · exact ih (n / 10) hd c hc
      · exact digCh_isDigit (Nat.mod_lt n (by omega))

theorem digitsVal_append_digit (l : Str) (c : Char) :
    digitsVal (l ++ [c]) = digitsVal l * 10 + (c.toNat - 48) := by
  simp [digitsVal, List.foldl_append]

theorem natDigits_val (n : Nat) : digitsVal (natDigits n) = n := by
  induction n using Nat.strong_induction_on with
  | _ n ih =>
    rw [natDigits_unfold]
    by_cases hn : n < 10
    · simp only [hn, if_true]
      simp [digitsVal, digCh_toNat hn]
    · have hd : n / 10 < n := Nat.div_lt_self (by omega) (by omega)
      simp only [hn, if_false]
      rw [digitsVal_append_digit, ih (n / 10) hd, digCh_toNat (Nat.mod_lt n (by omega))]
      omega

theorem natDigits_len_le : ∀ k n, 1 ≤ k → n < 10 ^ k → (natDigits n).length ≤ k := by
  intro k
  induction k with
  | zero => omega
  | succ k ih =>
    intro n _ hlt
    rw [natDigits_unfold]
    by_cases hn : n < 10
    · simp [hn]
    · have hk : 1 ≤ k := by
        rcases Nat.eq_zero_or_pos k with rfl | h
        · simp at hlt; omega
        · exact h
      have hdiv : n / 10 < 10 ^ k := by
        rw [Nat.div_lt_iff_lt_mul (by omega)]
        calc n < 10 ^ (k + 1) := hlt
          _ = 10 ^ k * 10 := by rw [pow_succ]
      simp only [hn, if_false, List.length_append, List.length_singleton]
      have := ih (n / 10) hk hdiv
      omega

theorem natDigits_utf8Len (n : Nat) : utf8Len (natDigits n) = (natDigits n).length := by
  induction n using Nat.strong_induction_on with
  | _ n ih =>
    rw [natDigits_unfold]
    by_cases hn : n < 10
    · simp [hn, utf8Len, digCh_utf8Size hn]
    · have hd : n / 10 < n := Nat.div_lt_self (by omega) (by omega)
      simp only [hn, if_false, utf8Len, List.map_append, List.sum_append,
        List.length_append]
      have h1 := ih (n / 10) hd
      simp only [utf8Len] at h1
      rw [h1]
      simp [digCh_utf8Size (Nat.mod_lt n (by omega))]

theorem stripPlus_of_head_ne {s : Str} (h : ∀ r, s ≠ '+' :: r) : stripPlus s = s := by
  unfold stripPlus
  split
  · exact absurd rfl (h _)
  · rfl

theorem parseU16_le {s : Str} {p : Nat} (h : parseU16 s = some p) : p ≤ 65535 := by
  simp only [parseU16] at h
  split at h
  · cases h
  · split at h
    · split at h
      · rename_i hle
        injection h with h2
        omega
      · cases h
    · cases h

theorem parseU16_natDigits {n : Nat} (h : n ≤ 65535) : parseU16 (natDigits n) = some n := by
  have hplus : ∀ r, natDigits n ≠ '+' :: r := by
    intro r heq
    have hm : ('+' : Char) ∈ natDigits n := by rw [heq]; simp
    have := natDigits_all_digit n '+' hm
    cases this
  have hdig : (natDigits n).all Char.isDigit = true :=
    List.all_eq_true.mpr (fun c hc => natDigits_all_digit n c hc)
  simp only [parseU16]
  rw [stripPlus_of_head_ne hplus]
  rw [if_neg (natDigits_ne_nil n), if_pos hdig,
    if_pos (show digitsVal (natDigits n) ≤ 65535 by rw [natDigits_val n]; exact h),
    natDigits_val n]

theorem parseU16_not_digits {s : Str} (hplus : ∀ r, s ≠ '+' :: r)
    (hnd : s.all Char.isDigit = false) : parseU16 s = none := by
  simp only [parseU16]
  rw [stripPlus_of_head_ne hplus]
  by_cases hnil : s = []
  · rw [if_pos hnil]
  · rw [if_neg hnil, if_neg (by simp [hnd])]

theorem parseU16_overflow {s : Str} (hdig : s.all Char.isDigit = true)
    (hbig : 65535 < digitsVal s) : parseU16 s = none := by
  have hplus : ∀ r, s ≠ '+' :: r := by
    rintro r rfl
    have hp : ('+' : Char).isDigit = true := List.all_eq_true.mp hdig '+' (by simp)
    cases hp
  simp only [parseU16]
  rw [stripPlus_of_head_ne hplus]
  by_cases hnil : s = []
  · rw [if_pos hnil]
  · rw [if_neg hnil, if_pos hdig, if_neg (by omega)]

/-! ### Helper lemmas about the URL validator -/

theorem utf8Len_append (a b : Str) : utf8Len (a ++ b) = utf8Len a + utf8Len b := by
  simp [utf8Len, List.map_append, List.sum_append]

theorem hostChar_ne {c : Char} (h : hostChar c = true) : c ≠ ':' ∧ c ≠ '/' := by
  constructor <;> rintro rfl <;> exact absurd h (by decide)

theorem localhost_chars : ∀ c ∈ str "localhost", c ≠ ':' ∧ c ≠ '/' := by decide

theorem hostErr_none_iff (host : Str) : hostErr host = none ↔
    host ≠ [] ∧ utf8Len host ≤ 255 ∧
      (host = str "localhost" ∨ (host.all hostChar = true ∧ host.contains '.' = true)) := by
  unfold hostErr
  split_ifs with h1 h2 h3 h4 h5
  · simp [h1]
  · constructor
    · intro hco; simp at hco
    · rintro ⟨-, hle, -⟩; omega
  · constructor
    · intro hco; simp at hco
    · rintro ⟨-, -, rfl | ⟨hall, -⟩⟩
      · exact h3 rfl
      · rw [hall] at h4; cases h4
  · constructor
    · intro hco; simp at hco
    · rintro ⟨-, -, rfl | ⟨-, hdot⟩⟩
      · exact h3 rfl
      · rw [hdot] at h5; cases h5
  · simp only [Bool.not_eq_true', Bool.not_eq_false] at h4 h5
    exact iff_of_true rfl ⟨h1, by omega, Or.inr ⟨by simpa using h4, by simpa using h5⟩⟩
  · have hloc : host = str "localhost" := not_not.mp h3
    exact iff_of_true rfl ⟨h1, by omega, Or.inl hloc⟩

theorem hostErr_none_chars {host : Str} (h : hostErr host = none) :
    ∀ c ∈ host, c ≠ ':' ∧ c ≠ '/' := by
  rcases (hostErr_none_iff host).mp h with ⟨-, -, rfl | ⟨hall, -⟩⟩
  · exact localhost_chars
  · exact fun c hc => hostChar_ne (List.all_eq_true.mp hall c hc)

theorem validateHostPort_ok {scheme netloc u : Str}
    (h : validateHostPort scheme netloc = .Ok u) :
    ∃ host pOpt, hostErr host = none ∧ (∀ p, pOpt = some p → p ≤ 65535) ∧
      u = renderURL scheme host pOpt := by
  unfold validateHostPort at h
  split at h
  · rename_i hp heq
    split at h
    · cases h
    · rename_i hhe
      split at h
      · cases h
      · split at h
        · cases h
        · rename_i p hps
          injection h with h2
          refine ⟨hp.1, some p, hhe, ?_, h2.symm⟩
          rintro q hq
          injection hq with hq2
          rw [← hq2]
          exact parseU16_le hps
  · rename_i heq
    split at h
    · cases h
    · rename_i hhe
      injection h with h2
      refine ⟨netloc, none, hhe, ?_, h2.symm⟩
      intro p hpe
      exact Option.noConfusion hpe

theorem clean_ok_shape {s u : Str} (h : clean_server_url s = .Ok u) :
    ∃ scheme host pOpt, (scheme = str "http" ∨ scheme = str "https") ∧
      hostErr host = none ∧ (∀ p, pOpt = some p → p ≤ 65535) ∧
      u = renderURL scheme host pOpt := by
  unfold clean_server_url at h
  split at h
  · cases h
  · split at h
    · cases h
    · rename_i sr heq
      split at h
      · cases h
      · rename_i hcond
        have hsch : sr.1 = str "http" ∨ sr.1 = str "https" := by tauto
        obtain ⟨host, pOpt, h1, h2, h3⟩ := validateHostPort_ok h
        exact ⟨sr.1, host, pOpt, hsch, h1, h2, h3⟩

/-- The `[:port]` suffix of a reassembled URL. -/
def portTail : Option Nat → Str
  | some p => ':' :: natDigits p
  | none => []

theorem renderURL_decomp (scheme host : Str) (pOpt : Option Nat) :
    renderURL scheme host pOpt = scheme ++ (str "://" ++ (host ++ portTail pOpt)) := by
  cases pOpt <;> simp [renderURL, portTail, List.append_assoc]

theorem portTail_chars {pOpt : Option Nat} :
    ∀ c ∈ portTail pOpt, c = ':' ∨ c.isDigit = true := by
  cases pOpt with
  | none => simp [portTail]
  | some p =>
    intro c hc
    rcases List.mem_cons.mp hc with rfl | hc2
    · exact Or.inl rfl
    · exact Or.inr (natDigits_all_digit p c hc2)

theorem portTail_no_slash {pOpt : Option Nat} : ∀ c ∈ portTail pOpt, c ≠ '/' := by
  intro c hc
  rcases portTail_chars c hc with rfl | hd
  · decide
  · exact isDigit_ne_of_ne hd (by decide)

theorem portTail_utf8Len {pOpt : Option Nat} (h : ∀ p, pOpt = some p → p ≤ 65535) :
    utf8Len (portTail pOpt) ≤ 6 := by
  cases pOpt with
  | none => simp [portTail, utf8Len]
  | some p =>
    have hp := h p rfl
    have hlen : (natDigits p).length ≤ 5 := natDigits_len_le 5 p (by omega) (by omega)
    have : utf8Len (portTail (some p)) = 1 + utf8Len (natDigits p) := by
      simp [portTail, utf8Len, show (':' : Char).utf8Size = 1 from by decide]
    rw [this, natDigits_utf8Len]
    omega

theorem clean_render {scheme host : Str} {pOpt : Option Nat}
    (hs : scheme = str "http" ∨ scheme = str "https")
    (hh : hostErr host = none) (hp : ∀ p, pOpt = some p → p ≤ 65535) :
    clean_server_url (renderURL scheme host pOpt) = .Ok (renderURL scheme host pOpt) := by
  have hchars := hostErr_none_chars hh
  obtain ⟨hne, hlen, -⟩ := (hostErr_none_iff host).mp hh
  have hschlen : utf8Len scheme ≤ 5 := by rcases hs with rfl | rfl <;> decide
  have hsep : utf8Len (str "://") = 3 := by decide
  -- total length of the reassembled URL is well below 512
  have hlenR : ¬(utf8Len (renderURL scheme host pOpt) > 512) := by
    rw [renderURL_decomp, utf8Len_append, utf8Len_append, utf8Len_append]
    have := portTail_utf8Len hp
    omega
  -- the lowercased reassembled URL starts with its own (lowercase) scheme
  have hlow : startsWithL (str "http://") ((renderURL scheme host pOpt).map Char.toLower) = true ∨
      startsWithL (str "https://") ((renderURL scheme host pOpt).map Char.toLower) = true := by
    rw [renderURL_decomp]
    rcases hs with rfl | rfl
    · left
      rw [show (str "http" ++ (str "://" ++ (host ++ portTail pOpt))) =
        str "http://" ++ (host ++ portTail pOpt) from rfl]
      rw [List.map_append, show List.map Char.toLower (str "http://") = str "http://" from by decide]
      exact startsWithL_append_self _ _
    · right
      rw [show (str "https" ++ (str "://" ++ (host ++ portTail pOpt))) =
        str "https://" ++ (host ++ portTail pOpt) from rfl]
      rw [List.map_append, show List.map Char.toLower (str "https://") = str "https://" from by decide]
      exact startsWithL_append_self _ _
  have hprep : prependScheme (renderURL scheme host pOpt) = renderURL scheme host pOpt := by
    unfold prependScheme
    rcases hlow with hA | hB
    · rw [hA]; simp
    · rw [hB]; simp
  have hsplit : splitOnFirst (str "://") (renderURL scheme host pOpt) =
      some (scheme, host ++ portTail pOpt) := by
    rw [renderURL_decomp]
    apply splitOnFirst_sep
    rcases hs with rfl | rfl <;> decide
  have hnetloc : (host ++ portTail pOpt).takeWhile (fun c => !(c == '/')) =
      host ++ portTail pOpt := by
    apply takeWhile_eq_self
    intro c hc
    rcases List.mem_append.mp hc with hc1 | hc2
    · simp [(hchars c hc1).2]
    · simp [portTail_no_slash c hc2]
  have hvhp : validateHostPort scheme (host ++ portTail pOpt) =
      .Ok (renderURL scheme host pOpt) := by
    cases pOpt with
    | none =>
      have hnc : (':' : Char) ∉ host := fun hm => (hchars ':' hm).1 rfl
      unfold validateHostPort
      rw [show portTail (none : Option Nat) = [] from rfl, List.append_nil,
        rsplitColon_eq_none hnc]
      simp [hh]
    | some p =>
      have hple : p ≤ 65535 := hp p rfl
      have hnc : (':' : Char) ∉ natDigits p := by
        intro hm
        exact absurd rfl (isDigit_ne_of_ne (natDigits_all_digit p ':' hm) (by decide))
      unfold validateHostPort
      rw [show portTail (some p) = ':' :: natDigits p from rfl, rsplitColon_append hnc]
      simp [hh, natDigits_ne_nil p, parseU16_natDigits hple]
  unfold clean_server_url
  rw [if_neg hlenR, hprep, hsplit]
  have hcond : ¬(scheme ≠ str "http" ∧ scheme ≠ str "https") := by tauto
  simp only [if_neg hcond]
  show validateHostPort scheme ((host ++ portTail pOpt).takeWhile (fun c => !(c == '/'))) =
    .Ok (renderURL scheme host pOpt)
  rw [hnetloc]
  exact hvhp

/-! ### Helper lemmas about the token scanner and error messages -/

theorem ne_of_head {c1 c2 : Char} {t1 t2 : Str} (h : c1 ≠ c2) : c1 :: t1 ≠ c2 :: t2 := by
  intro he
  injection he with h1 _
  exact h h1

theorem hostErr_some {host e : Str} (h : hostErr host = some e) :
    e = str "hostname empty" ∨ e = str "hostname too long (max 255 chars)" ∨
    e = str "hostname contains invalid characters" ∨
    e = str "hostname must contain a dot unless 'localhost'" := by
  unfold hostErr at h
  split_ifs at h
  · left; injection h with h2; exact h2.symm
  · right; left; injection h with h2; exact h2.symm
  · right; right; left; injection h with h2; exact h2.symm
  · right; right; right; injection h with h2; exact h2.symm

theorem validateHostPort_err {scheme netloc e : Str}
    (h : validateHostPort scheme netloc = .Err e) :
    e = str "hostname empty" ∨ e = str "hostname too long (max 255 chars)" ∨
    e = str "hostname contains invalid characters" ∨
    e = str "hostname must contain a dot unless 'localhost'" ∨
    e = str "port is empty" ∨ e = str "port is not a valid number" := by
  unfold validateHostPort at h
  split at h
  · split at h
    · rename_i e0 heq
      injection h with h2
      rcases hostErr_some (h2 ▸ heq) with h3 | h3 | h3 | h3 <;> tauto
    · split at h
      · injection h with h2; right; right; right; right; left; exact h2.symm
      · split at h
        · injection h with h2; right; right; right; right; right; exact h2.symm
        · cases h
  · split at h
    · rename_i e0 heq
      injection h with h2
      rcases hostErr_some (h2 ▸ heq) with h3 | h3 | h3 | h3 <;> tauto
    · cases h

theorem clean_err_ne_state {s e : Str} (h : clean_server_url s = .Err e) :
    e ≠ str "--state-file is required" := by
  unfold clean_server_url at h
  split at h
  · injection h with h2
    rw [← h2]
    decide
  · split at h
    · injection h with h2
      rw [← h2]
      decide
    · split at h
      · injection h with h2
        rw [← h2]
        exact ne_of_head (by decide)
      · rcases validateHostPort_err h with h1 | h1 | h1 | h1 | h1 | h1 <;>
          rw [h1] <;> decide

theorem scan_use_proxy (d : Draft) (l : List Str) :
    scanArgs d (str "--use-proxy" :: l) = scanArgs { d with use_proxy := true } l := by
  rw [scanArgs.eq_def]
  simp only []
  rw [if_neg (by decide), if_neg (by decide)]
  simp

theorem scan_debug (d : Draft) (l : List Str) :
    scanArgs d (str "--debug" :: l) = scanArgs { d with debug := true } l := by
  rw [scanArgs.eq_def]
  simp only []
  rw [if_neg (by decide), if_neg (by decide), if_neg (by decide), if_neg (by decide),
    if_neg (by decide), if_neg (by decide), if_neg (by decide)]
  simp

theorem scan_help (d : Draft) (l : List Str) :
    scanArgs d (str "--help" :: l) = .Err (str "help") := by
  rw [scanArgs.eq_def]
  simp only []
  rw [if_neg (by decide), if_neg (by decide), if_neg (by decide), if_neg (by decide),
    if_neg (by decide), if_neg (by decide), if_neg (by decide), if_neg (by decide)]
  simp

theorem scan_h (d : Draft) (l : List Str) :
    scanArgs d (str "-h" :: l) = .Err (str "help") := by
  rw [scanArgs.eq_def]
  simp only []
  rw [if_neg (by decide), if_neg (by decide), if_neg (by decide), if_neg (by decide),
    if_neg (by decide), if_neg (by decide), if_neg (by decide), if_neg (by decide)]
  simp

theorem scanArgs_append (d : Draft) (xs : List Str) :
    ∀ d' ys, scanArgs d xs = .Ok d' → scanArgs d (xs ++ ys) = scanArgs d' ys := by
  induction d, xs using scanArgs.induct
  case case1 d =>
    intro d' ys h
    injection h with h2
    rw [List.nil_append, h2]
  case case2 d v rest2 ih =>
    intro d' ys h
    exact ih d' ys h
  case case3 d =>
    intro d' ys h
    exact RustResult.noConfusion
      (show (RustResult.Err (str "--server requires a value") : RustResult Draft) = .Ok d' from h)
  case case4 d v rest2 _ ih =>
    intro d' ys h
    exact ih d' ys h
  case case5 d _ =>
    intro d' ys h
    exact RustResult.noConfusion
      (show (RustResult.Err (str "--state-file requires a file name / path") : RustResult Draft) = .Ok d' from h)
  case case6 d rest _ _ ih =>
    intro d' ys h
    rw [scan_use_proxy] at h
    rw [show (str "--use-proxy" :: rest) ++ ys = str "--use-proxy" :: (rest ++ ys) from rfl,
      scan_use_proxy]
    exact ih d' ys h
  case case7 d v rest2 hup _ _ _ ih =>
    intro d' ys h
    have hstep : ∀ (d0 : Draft) (l : List Str), scanArgs d0 (str "--proxy-type" :: v :: l) =
        (if v.map Char.toUpper = str "HTTP" then
          scanArgs { d0 with proxy_type := ProxyType.Http } l
        else if v.map Char.toUpper = str "SOCKS4" then
          scanArgs { d0 with proxy_type := ProxyType.Socks4 } l
        else if v.map Char.toUpper = str "SOCKS5" then
          scanArgs { d0 with proxy_type := ProxyType.Socks5 } l
        else
          .Err (str "Invalid proxy type: " ++ v.map Char.toUpper ++
                str " (allowed: HTTP, SOCKS4, SOCKS5)")) := fun _ _ => rfl
    rw [hstep d rest2, if_pos hup] at h
    rw [show (str "--proxy-type" :: v :: rest2) ++ ys = str "--proxy-type" :: v :: (rest2 ++ ys) from rfl,
      hstep d (rest2 ++ ys), if_pos hup]
    exact ih d' ys h
  case case8 d v rest2 hn1 hup _ _ _ ih =>
    intro d' ys h
    have hstep : ∀ (d0 : Draft) (l : List Str), scanArgs d0 (str "--proxy-type" :: v :: l) =
        (if v.map Char.toUpper = str "HTTP" then
          scanArgs { d0 with proxy_type := ProxyType.Http } l
        else if v.map Char.toUpper = str "SOCKS4" then
          scanArgs { d0 with proxy_type := ProxyType.Socks4 } l
        else if v.map Char.toUpper = str "SOCKS5" then
          scanArgs { d0 with proxy_type := ProxyType.Socks5 } l
        else
          .Err (str "Invalid proxy type: " ++ v.map Char.toUpper ++
                str " (allowed: HTTP, SOCKS4, SOCKS5)")) := fun _ _ => rfl
    rw [hstep d rest2, if_neg hn1, if_pos hup] at h
    rw [show (str "--proxy-type" :: v :: rest2) ++ ys = str "--proxy-type" :: v :: (rest2 ++ ys) from rfl,
      hstep d (rest2 ++ ys), if_neg hn1, if_pos hup]
    exact ih d' ys h
  case case9 d v rest2 hn1 hn2 hup _ _ _ ih =>
    intro d' ys h
    have hstep : ∀ (d0 : Draft) (l : List Str), scanArgs d0 (str "--proxy-type" :: v :: l) =
        (if v.map Char.toUpper = str "HTTP" then
          scanArgs { d0 with proxy_type := ProxyType.Http } l
        else if v.map Char.toUpper = str "SOCKS4" then
          scanArgs { d0 with proxy_type := ProxyType.Socks4 } l
        else if v.map Char.toUpper = str "SOCKS5" then
          scanArgs { d0 with proxy_type := ProxyType.Socks5 } l
        else
          .Err (str "Invalid proxy type: " ++ v.map Char.toUpper ++
                str " (allowed: HTTP, SOCKS4, SOCKS5)")) := fun _ _ => rfl
    rw [hstep d rest2, if_neg hn1, if_neg hn2, if_pos hup] at h
    rw [show (str "--proxy-type" :: v :: rest2) ++ ys = str "--proxy-type" :: v :: (rest2 ++ ys) from rfl,
      hstep d (rest2 ++ ys), if_neg hn1, if_neg hn2, if_pos hup]
    exact ih d' ys h
  case case10 d v rest2 hn1 hn2 hn3 _ _ _ =>
    intro d' ys h
    have hstep : ∀ (d0 : Draft) (l : List Str), scanArgs d0 (str "--proxy-type" :: v :: l) =
        (if v.map Char.toUpper = str "HTTP" then
          scanArgs { d0 with proxy_type := ProxyType.Http } l
        else if v.map Char.toUpper = str "SOCKS4" then
          scanArgs { d0 with proxy_type := ProxyType.Socks4 } l
        else if v.map Char.toUpper = str "SOCKS5" then
          scanArgs { d0 with proxy_type := ProxyType.Socks5 } l
        else
          .Err (str "Invalid proxy type: " ++ v.map Char.toUpper ++
                str " (allowed: HTTP, SOCKS4, SOCKS5)")) := fun _ _ => rfl
    rw [hstep d rest2, if_neg hn1, if_neg hn2, if_neg hn3] at h
    exact RustResult.noConfusion h
  case case11 d _ _ _ =>
    intro d' ys h
    exact RustResult.noConfusion
      (show (RustResult.Err (str "--proxy-type requires a value") : RustResult Draft) = .Ok d' from h)
  case case12 d v rest2 _ _ _ _ ih =>
    intro d' ys h
    exact ih d' ys h
  case case13 d _ _ _ _ =>
    intro d' ys h
    exact RustResult.noConfusion
      (show (RustResult.Err (str "--proxy-addr requires a value") : RustResult Draft) = .Ok d' from h)
  case case14 d v rest2 _ _ _ _ _ ih =>
    intro d' ys h
    exact ih d' ys h
  case case15 d _ _ _ _ _ =>
    intro d' ys h
    exact RustResult.noConfusion
      (show (RustResult.Err (str "--proxy-user requires a value") : RustResult Draft) = .Ok d' from h)
  case case16 d v rest2 _ _ _ _ _ _ ih =>
    intro d' ys h
    exact ih d' ys h
  case case17 d _ _ _ _ _ _ =>
    intro d' ys h
    exact RustResult.noConfusion
      (show (RustResult.Err (str "--proxy-pass requires a value") : RustResult Draft) = .Ok d' from h)
  case case18 d rest _ _ _ _ _ _ _ ih =>
    intro d' ys h
    rw [scan_debug] at h
    rw [show (str "--debug" :: rest) ++ ys = str "--debug" :: (rest ++ ys) from rfl,
      scan_debug]
    exact ih d' ys h
  case case19 d a rest _ _ _ _ _ _ _ _ hor =>
    intro d' ys h
    rcases hor with rfl | rfl
    · rw [scan_help] at h
      exact RustResult.noConfusion h
    · rw [scan_h] at h
      exact RustResult.noConfusion h
  case case20 d a rest hn1 hn2 hn3 hn4 hn5 hn6 hn7 hn8 hn9 =>
    intro d' ys h
    rw [scanArgs.eq_def] at h
    simp only [] at h
    rw [if_neg hn1, if_neg hn2, if_neg hn3, if_neg hn4, if_neg hn5, if_neg hn6,
      if_neg hn7, if_neg hn8, if_neg hn9] at h
    exact RustResult.noConfusion h

/-! ### Claim theorems -/

/-- Claim C7: bracketed proxy-address parsing.  For every input starting with
`'['`, the host is the substring strictly between `'['` and the first `']'`
with no further validation; a missing `']'` yields
`"missing closing ']' for IPv6"`; the character after `']'` must be `':'`
(else `"Missing ':' after IPv6 address"`); and the text after that colon must
be a nonempty unsigned 16-bit integer.  In particular `"[::1]:9050"` parses to
host `"::1"` and port `9050`. -/
theorem C7_bracketed_parsing :
    (∀ t : Str, (']' : Char) ∉ t →
      parse_proxy_addr ('[' :: t) = .Err (str "missing closing ']' for IPv6")) ∧
    (∀ host rest : Str, (']' : Char) ∉ host → (∀ ps : Str, rest ≠ ':' :: ps) →
      parse_proxy_addr ('[' :: (host ++ ']' :: rest)) =
        .Err (str "Missing ':' after IPv6 address")) ∧
    (∀ host : Str, (']' : Char) ∉ host →
      parse_proxy_addr ('[' :: (host ++ [']', ':'])) = .Err (str "Port is empty")) ∧
    (∀ host ps : Str, (']' : Char) ∉ host → ps ≠ [] → parseU16 ps = none →
      parse_proxy_addr ('[' :: (host ++ ']' :: ':' :: ps)) =
        .Err (str "Port is not a valid number")) ∧
    (∀ host ps : Str, ∀ p : Nat, (']' : Char) ∉ host → parseU16 ps = some p →
      parse_proxy_addr ('[' :: (host ++ ']' :: ':' :: ps)) = .Ok (host, p)) ∧
    parse_proxy_addr (str "[::1]:9050") = .Ok (str "::1", 9050) := by
  refine ⟨?_, ?_, ?_, ?_, ?_, rfl⟩
  · intro t ht
    rw [parse_proxy_addr.eq_def]
    simp only []
    rw [splitAtFirst_eq_none ht]
  · intro host rest hh hnc
    rw [parse_proxy_addr.eq_def]
    simp only []
    rw [splitAtFirst_append hh]
    simp only []
  · intro host hh
    rw [parse_proxy_addr.eq_def]
    simp only []
    rw [show (host ++ [']', ':'] : Str) = host ++ ']' :: ':' :: [] from rfl,
      splitAtFirst_append hh]
    rfl
  · intro host ps hh hne hps
    rw [parse_proxy_addr.eq_def]
    simp only []
    rw [splitAtFirst_append hh]
    show (if ps = [] then _ else _) = _
    rw [if_neg hne, hps]
  · intro host ps p hh hps
    have hne : ps ≠ [] := by
      rintro rfl
      rw [show parseU16 ([] : Str) = none from rfl] at hps
      exact Option.noConfusion hps
    rw [parse_proxy_addr.eq_def]
    simp only []
    rw [splitAtFirst_append hh]
    show (if ps = [] then _ else _) = _
    rw [if_neg hne, hps]

/-- Claim C8: unbracketed proxy-address parsing.  For every input not starting
with `'['`, the string is split at its last colon into `(host, port)`; if
either part is empty (including inputs with no colon at all, such as `"bad"`)
the result is `"Empty host or port"`; otherwise the port part must parse as an
unsigned 16-bit integer, and the host part is taken verbatim even if it itself
contains colons (`"a:b:80"` yields host `"a:b"`, port `80`). -/
theorem C8_unbracketed_parsing :
    (∀ s : Str, (∀ t, s ≠ '[' :: t) → rsplitColon s = none →
      parse_proxy_addr s = .Err (str "Empty host or port")) ∧
    (∀ s host ps : Str, (∀ t, s ≠ '[' :: t) → rsplitColon s = some (host, ps) →
      (s = host ++ ':' :: ps ∧ (':' : Char) ∉ ps) ∧
      ((host = [] ∨ ps = []) → parse_proxy_addr s = .Err (str "Empty host or port")) ∧
      (host ≠ [] → ps ≠ [] →
        (parseU16 ps = none → parse_proxy_addr s = .Err (str "Port is not a valid number")) ∧
        (∀ p, parseU16 ps = some p → parse_proxy_addr s = .Ok (host, p)))) ∧
    parse_proxy_addr (str "bad") = .Err (str "Empty host or port") ∧
    parse_proxy_addr (str "a:b:80") = .Ok (str "a:b", 80) := by
  refine ⟨?_, ?_, rfl, rfl⟩
  · intro s hs hn
    rw [parse_proxy_addr.eq_def]
    split
    · exact absurd rfl (hs _)
    · rw [hn]
  · intro s host ps hs hr
    refine ⟨rsplitColon_some hr, ?_, ?_⟩
    · intro hor
      rw [parse_proxy_addr.eq_def]
      split
      · exact absurd rfl (hs _)
      · rw [hr]
        show (if (host, ps).1 = [] ∨ (host, ps).2 = [] then _ else _) = _
        rw [if_pos hor]
    · intro hh hp
      have hnor : ¬(host = [] ∨ ps = []) := by
        rintro (h1 | h1)
        · exact hh h1
        · exact hp h1
      constructor
      · intro hnone
        rw [parse_proxy_addr.eq_def]
        split
        · exact absurd rfl (hs _)
        · rw [hr]
          show (if (host, ps).1 = [] ∨ (host, ps).2 = [] then _ else _) = _
          rw [if_neg hnor, hnone]
      · intro p hsome
        rw [parse_proxy_addr.eq_def]
        split
        · exact absurd rfl (hs _)
        · rw [hr]
          show (if (host, ps).1 = [] ∨ (host, ps).2 = [] then _ else _) = _
          rw [if_neg hnor, hsome]

/-- Claim C10: the bracketed branch of the proxy-address parser accepts an
empty host: `"[]:80"` returns `Ok` with host `""` and port `80`, while the
non-empty-host check (`"Empty host or port"`) applies only in the unbracketed
branch, which rejects the analogous `":80"`. -/
theorem C10_bracket_empty_host :
    parse_proxy_addr (str "[]:80") = .Ok (([] : Str), 80) ∧
    parse_proxy_addr (str ":80") = .Err (str "Empty host or port") := ⟨rfl, rfl⟩

/-- Claim C5: hostname acceptance.  The extracted host `"localhost"` is
accepted unconditionally; every other host is accepted only if all its
characters are ASCII alphanumeric, `'.'` or `'-'` (else
`"hostname contains invalid characters"`) and it contains at least one `'.'`
(else `"hostname must contain a dot unless 'localhost'"`); hence
`--server localhost` succeeds and `--server a-b` fails with the
dot-requirement error. -/
theorem C5_hostname_rules :
    hostErr (str "localhost") = none ∧
    (∀ host : Str, hostErr host = none →
      host = str "localhost" ∨ (host.all hostChar = true ∧ host.contains '.' = true)) ∧
    (∀ host : Str, host ≠ str "localhost" → host ≠ [] → utf8Len host ≤ 255 →
      (host.all hostChar = false →
        hostErr host = some (str "hostname contains invalid characters")) ∧
      (host.all hostChar = true → host.contains '.' = false →
        hostErr host = some (str "hostname must contain a dot unless 'localhost'")) ∧
      (host.all hostChar = true → host.contains '.' = true → hostErr host = none)) ∧
    clean_server_url (str "localhost") = .Ok (str "https://localhost") ∧
    clean_server_url (str "a-b") =
      .Err (str "hostname must contain a dot unless 'localhost'") := by
  refine ⟨rfl, ?_, ?_, rfl, rfl⟩
  · intro host h
    rcases (hostErr_none_iff host).mp h with ⟨-, -, hd⟩
    exact hd
  · intro host h1 h2 h3
    refine ⟨?_, ?_, ?_⟩
    · intro hall
      unfold hostErr
      rw [if_neg h2, if_neg (by omega), if_pos h1, if_pos (by rw [hall]; decide)]
    · intro hall hdot
      unfold hostErr
      rw [if_neg h2, if_neg (by omega), if_pos h1, if_neg (by rw [hall]; decide),
        if_pos (by rw [hdot]; decide)]
    · intro hall hdot
      unfold hostErr
      rw [if_neg h2, if_neg (by omega), if_pos h1, if_neg (by rw [hall]; decide),
        if_neg (by rw [hdot]; decide)]

/-- Witness for C5 at concrete hosts: `"a-b"` (valid characters, no dot). -/
theorem C5_hostname_rules_witness :
    hostErr (str "a-b") = some (str "hostname must contain a dot unless 'localhost'") :=
  ((C5_hostname_rules.2.2.1 (str "a-b") (by decide) (by decide) (by decide)).2.1
    (by decide) (by decide))

/-- Claim C6 counterexample: the port substring `"+80"` is non-digit content,
yet the server-URL validator accepts `"host.example.com:+80"` (Rust u16
parsing allows one leading `'+'`), contradicting the claim that any non-digit
port substring yields `"port is not a valid number"`. -/
theorem C6_counterexample :
    clean_server_url (str "host.example.com:+80") =
      .Ok (str "https://host.example.com:80") ∧
    (str "+80").all Char.isDigit = false := ⟨rfl, rfl⟩

/-- Claim C6 (amended): when the netloc contains a port substring, an empty
substring yields `"port is empty"`; a substring failing to parse as an
unsigned 16-bit integer — non-digit content apart from one optional leading
`'+'`, or a digit value above 65535 such as `"99999"` — yields
`"port is not a valid number"`; exactly the substrings parsing as a u16
succeed. -/
theorem C6_port_validation (scheme netloc host ps : Str)
    (h1 : rsplitColon netloc = some (host, ps)) (h2 : hostErr host = none) :
    (ps = [] → validateHostPort scheme netloc = .Err (str "port is empty")) ∧
    (ps ≠ [] → parseU16 ps = none →
      validateHostPort scheme netloc = .Err (str "port is not a valid number")) ∧
    (∀ p, parseU16 ps = some p →
      validateHostPort scheme netloc = .Ok (renderURL scheme host (some p)) ∧ p ≤ 65535) ∧
    (ps.all Char.isDigit = true → 65535 < digitsVal ps → parseU16 ps = none) ∧
    ((∀ r, ps ≠ '+' :: r) → ps.all Char.isDigit = false → parseU16 ps = none) ∧
    clean_server_url (str "host.example.com:99999") =
      .Err (str "port is not a valid number") := by
  have hv : validateHostPort scheme netloc =
      (if ps = [] then .Err (str "port is empty")
       else
         match parseU16 ps with
         | none => .Err (str "port is not a valid number")
         | some p => .Ok (renderURL scheme host (some p))) := by
    unfold validateHostPort
    rw [h1]
    simp only []
    rw [h2]
  refine ⟨?_, ?_, ?_, ?_, ?_, rfl⟩
  · intro hps
    rw [hv, if_pos hps]
  · intro hne hnone
    rw [hv, if_neg hne, hnone]
  · intro p hsome
    have hne : ps ≠ [] := by
      rintro rfl
      rw [show parseU16 ([] : Str) = none from rfl] at hsome
      exact Option.noConfusion hsome
    refine ⟨?_, parseU16_le hsome⟩
    rw [hv, if_neg hne, hsome]
  · exact fun hd hb => parseU16_overflow hd hb
  · exact fun hplus hnd => parseU16_not_digits hplus hnd

/-- Witness for C6 at the concrete netloc `"h.c:80"`. -/
theorem C6_port_validation_witness :
    validateHostPort (str "https") (str "h.c:80") =
      .Ok (renderURL (str "https") (str "h.c") (some 80)) ∧ 80 ≤ 65535 :=
  (C6_port_validation (str "https") (str "h.c:80") (str "h.c") (str "80")
    (by decide) (by decide)).2.2.1 80 (by decide)

/-- Witness for C7 at the concrete bracketed address `"[::1]:9050"`. -/
theorem C7_bracketed_parsing_witness :
    parse_proxy_addr ('[' :: (str "::1" ++ ']' :: ':' :: str "9050")) = .Ok (str "::1", 9050) :=
  C7_bracketed_parsing.2.2.2.2.1 (str "::1") (str "9050") 9050 (by decide) (by decide)

/-- Witness for C8 at the concrete unbracketed address `"a.b:80"`. -/
theorem C8_unbracketed_parsing_witness :
    parse_proxy_addr (str "a.b:80") = .Ok (str "a.b", 80) :=
  ((C8_unbracketed_parsing.2.1 (str "a.b:80") (str "a.b") (str "80")
      (fun t he => by
        rw [show str "a.b:80" = 'a' :: str ".b:80" from rfl] at he
        injection he with h1 _
        exact absurd h1 (by decide))
      (by decide)).2.2 (by decide) (by decide)).2 80 (by decide)

/-! ### Scheme-prefix decomposition lemmas -/

theorem toLower_colon {c : Char} (h : Char.toLower c = ':') : c = ':' :=
  toLower_eq_fix (by decide) h

theorem toLower_slash {c : Char} (h : Char.toLower c = '/') : c = '/' :=
  toLower_eq_fix (by decide) h

theorem ci_http_decomp {s : Str}
    (h : startsWithL (str "http://") (s.map Char.toLower) = true) :
    ∃ a b c d r, s = a :: b :: c :: d :: (str "://" ++ r) ∧
      Char.toLower a = 'h' ∧ Char.toLower b = 't' ∧ Char.toLower c = 't' ∧
      Char.toLower d = 'p' := by
  rw [show str "http://" = 'h' :: 't' :: 't' :: 'p' :: ':' :: '/' :: '/' :: ([] : Str) from rfl] at h
  rcases s with _ | ⟨a, _ | ⟨b, _ | ⟨c, _ | ⟨d, _ | ⟨e, _ | ⟨f, _ | ⟨g, r⟩⟩⟩⟩⟩⟩⟩ <;>
    simp only [List.map_cons, List.map_nil, startsWithL, Bool.and_eq_true, beq_iff_eq,
      Bool.false_eq_true, and_false, and_true, eq_self_iff_true] at h
  obtain ⟨h1, h2, h3, h4, h5, h6, h7⟩ := h
  obtain rfl : e = ':' := toLower_colon h5.symm
  obtain rfl : f = '/' := toLower_slash h6.symm
  obtain rfl : g = '/' := toLower_slash h7.symm
  exact ⟨a, b, c, d, r, rfl, h1.symm, h2.symm, h3.symm, h4.symm⟩

theorem ci_https_decomp {s : Str}
    (h : startsWithL (str "https://") (s.map Char.toLower) = true) :
    ∃ a b c d f r, s = a :: b :: c :: d :: f :: (str "://" ++ r) ∧
      Char.toLower a = 'h' ∧ Char.toLower b = 't' ∧ Char.toLower c = 't' ∧
      Char.toLower d = 'p' ∧ Char.toLower f = 's' := by
  rw [show str "https://" = 'h' :: 't' :: 't' :: 'p' :: 's' :: ':' :: '/' :: '/' :: ([] : Str) from rfl] at h
  rcases s with _ | ⟨a, _ | ⟨b, _ | ⟨c, _ | ⟨d, _ | ⟨f, _ | ⟨e, _ | ⟨g1, _ | ⟨g2, r⟩⟩⟩⟩⟩⟩⟩⟩ <;>
    simp only [List.map_cons, List.map_nil, startsWithL, Bool.and_eq_true, beq_iff_eq,
      Bool.false_eq_true, and_false, and_true, eq_self_iff_true] at h
  obtain ⟨h1, h2, h3, h4, h5, h6, h7, h8⟩ := h
  obtain rfl : e = ':' := toLower_colon h6.symm
  obtain rfl : g1 = '/' := toLower_slash h7.symm
  obtain rfl : g2 = '/' := toLower_slash h8.symm
  exact ⟨a, b, c, d, f, r, rfl, h1.symm, h2.symm, h3.symm, h4.symm, h5.symm⟩

theorem clean_split {s pre rest : Str} (hlen : ¬(utf8Len s > 512))
    (hprep : prependScheme s = pre ++ (str "://" ++ rest)) (hpre : (':' : Char) ∉ pre) :
    clean_server_url s =
      (if pre ≠ str "http" ∧ pre ≠ str "https" then
        .Err (str "unsupported scheme '" ++ pre ++ str "'")
      else validateHostPort pre (rest.takeWhile (fun c => !(c == '/')))) := by
  unfold clean_server_url
  rw [if_neg hlen, hprep, splitOnFirst_sep hpre]

/-- Claim C4: scheme handling of the server-URL validator, for inputs of
byte length ≤ 512.  If the input does not start case-insensitively with
`http://` or `https://`, `https://` is prepended and a successful result has
scheme `https`; a lowercase `http://`/`https://` prefix is preserved in a
successful result; a case-insensitive but not lowercase prefix (e.g.
`HTTP://host.example.com`) is not prepended to and produces the error
`unsupported scheme '<scheme>'` with the scheme in its original case; and
`http://host.example.com:8080` round-trips unchanged. -/
theorem C4_scheme_handling (s : Str) (hlen : utf8Len s ≤ 512) :
    (startsWithL (str "http://") (s.map Char.toLower) = false →
     startsWithL (str "https://") (s.map Char.toLower) = false →
     ∀ u, clean_server_url s = .Ok u → startsWithL (str "https://") u = true) ∧
    (startsWithL (str "http://") s = true →
     ∀ u, clean_server_url s = .Ok u → startsWithL (str "http://") u = true) ∧
    (startsWithL (str "https://") s = true →
     ∀ u, clean_server_url s = .Ok u → startsWithL (str "https://") u = true) ∧
    (startsWithL (str "http://") (s.map Char.toLower) = true →
     startsWithL (str "http://") s = false →
     clean_server_url s = .Err (str "unsupported scheme '" ++ s.take 4 ++ str "'")) ∧
    (startsWithL (str "https://") (s.map Char.toLower) = true →
     startsWithL (str "https://") s = false →
     clean_server_url s = .Err (str "unsupported scheme '" ++ s.take 5 ++ str "'")) ∧
    clean_server_url (str "http://host.example.com:8080") =
      .Ok (str "http://host.example.com:8080") := by
  refine ⟨?_, ?_, ?_, ?_, ?_, rfl⟩
  · intro hA hB u hu
    have hprep : prependScheme s = str "https" ++ (str "://" ++ s) := by
      unfold prependScheme
      rw [hA, hB]
      rfl
    rw [clean_split (by omega) hprep (by decide), if_neg (fun hc => hc.2 rfl)] at hu
    obtain ⟨host, pOpt, hhe, hb, rfl⟩ := validateHostPort_ok hu
    rw [renderURL_decomp]
    exact startsWithL_append_self (str "https://") _
  · intro hpre u hu
    obtain ⟨r, rfl⟩ := startsWithL_ex hpre
    have hA : startsWithL (str "http://") ((str "http://" ++ r).map Char.toLower) = true := by
      rw [List.map_append, show List.map Char.toLower (str "http://") = str "http://" from by decide]
      exact startsWithL_append_self _ _
    have hprep : prependScheme (str "http://" ++ r) = str "http" ++ (str "://" ++ r) := by
      unfold prependScheme
      rw [hA]
      rfl
    rw [clean_split (by omega) hprep (by decide), if_neg (fun hc => hc.1 rfl)] at hu
    obtain ⟨host, pOpt, hhe, hb, rfl⟩ := validateHostPort_ok hu
    rw [renderURL_decomp]
    exact startsWithL_append_self (str "http://") _
  · intro hpre u hu
    obtain ⟨r, rfl⟩ := startsWithL_ex hpre
    have hA : startsWithL (str "https://") ((str "https://" ++ r).map Char.toLower) = true := by
      rw [List.map_append, show List.map Char.toLower (str "https://") = str "https://" from by decide]
      exact startsWithL_append_self _ _
    have hB : prependScheme (str "https://" ++ r) = str "https" ++ (str "://" ++ r) := by
      unfold prependScheme
      rw [hA]
      rfl
    rw [clean_split (by omega) hB (by decide), if_neg (fun hc => hc.2 rfl)] at hu
    obtain ⟨host, pOpt, hhe, hb, rfl⟩ := validateHostPort_ok hu
    rw [renderURL_decomp]
    exact startsWithL_append_self (str "https://") _
  · intro hci hnot
    obtain ⟨a, b, c, d, r, rfl, h1, h2, h3, h4⟩ := ci_http_decomp hci
    have hprep : prependScheme (a :: b :: c :: d :: (str "://" ++ r)) =
        [a, b, c, d] ++ (str "://" ++ r) := by
      unfold prependScheme
      rw [hci]
      rfl
    have hnc : (':' : Char) ∉ ([a, b, c, d] : Str) := by
      intro hm
      rcases List.mem_cons.mp hm with h0 | hm
      · rw [← h0] at h1; exact absurd h1 (by decide)
      rcases List.mem_cons.mp hm with h0 | hm
      · rw [← h0] at h2; exact absurd h2 (by decide)
      rcases List.mem_cons.mp hm with h0 | hm
      · rw [← h0] at h3; exact absurd h3 (by decide)
      rcases List.mem_cons.mp hm with h0 | hm
      · rw [← h0] at h4; exact absurd h4 (by decide)
      simp at hm
    have hne_http : ¬(([a, b, c, d] : Str) = str "http") := by
      intro he
      have h0 : (a :: b :: c :: d :: (str "://" ++ r) : Str) = str "http" ++ (str "://" ++ r) := by
        rw [show (a :: b :: c :: d :: (str "://" ++ r) : Str) =
          [a, b, c, d] ++ (str "://" ++ r) from rfl, he]
      rw [h0] at hnot
      have htrue : startsWithL (str "http://") (str "http" ++ (str "://" ++ r)) = true :=
        startsWithL_append_self (str "http://") r
      rw [htrue] at hnot
      cases hnot
    have hne_https : ¬(([a, b, c, d] : Str) = str "https") := by
      intro he
      have := congrArg List.length he
      simp [str] at this
    rw [clean_split (by omega) hprep hnc, if_pos ⟨hne_http, hne_https⟩]
    rfl
  · intro hci hnot
    obtain ⟨a, b, c, d, f, r, rfl, h1, h2, h3, h4, h5⟩ := ci_https_decomp hci
    have hprep : prependScheme (a :: b :: c :: d :: f :: (str "://" ++ r)) =
        [a, b, c, d, f] ++ (str "://" ++ r) := by
      unfold prependScheme
      rw [hci]
      simp only [Bool.not_true, Bool.and_false]
      rfl
    have hnc : (':' : Char) ∉ ([a, b, c, d, f] : Str) := by
      intro hm
      rcases List.mem_cons.mp hm with h0 | hm
      · rw [← h0] at h1; exact absurd h1 (by decide)
      rcases List.mem_cons.mp hm with h0 | hm
      · rw [← h0] at h2; exact absurd h2 (by decide)
      rcases List.mem_cons.mp hm with h0 | hm
      · rw [← h0] at h3; exact absurd h3 (by decide)
      rcases List.mem_cons.mp hm with h0 | hm
      · rw [← h0] at h4; exact absurd h4 (by decide)
      rcases List.mem_cons.mp hm with h0 | hm
      · rw [← h0] at h5; exact absurd h5 (by decide)
      simp at hm
    have hne_http : ¬(([a, b, c, d, f] : Str) = str "http") := by
      intro he
      have := congrArg List.length he
      simp [str] at this
    have hne_https : ¬(([a, b, c, d, f] : Str) = str "https") := by
      intro he
      have h0 : (a :: b :: c :: d :: f :: (str "://" ++ r) : Str) =
          str "https" ++ (str "://" ++ r) := by
        rw [show (a :: b :: c :: d :: f :: (str "://" ++ r) : Str) =
          [a, b, c, d, f] ++ (str "://" ++ r) from rfl, he]
      rw [h0] at hnot
      have htrue : startsWithL (str "https://") (str "https" ++ (str "://" ++ r)) = true :=
        startsWithL_append_self (str "https://") r
      rw [htrue] at hnot
      cases hnot
    rw [clean_split (by omega) hprep hnc, if_pos ⟨hne_http, hne_https⟩]
    rfl

/-- Witness for C4 at concrete inputs: `"x.y"` has no scheme prefix and the
result carries the prepended `https` scheme. -/
theorem C4_scheme_handling_witness :
    clean_server_url (str "x.y") = .Ok (str "https://x.y") ∧
    startsWithL (str "https://") (str "https://x.y") = true :=
  ⟨rfl, (C4_scheme_handling (str "x.y") (by decide)).1 (by decide) (by decide)
    (str "https://x.y") rfl⟩

/-- Claim C9: the server-URL validator is idempotent on its own successful
output: whenever `clean_server_url s = Ok u`, also `clean_server_url u = Ok u`
— every successful output is a fixed point of the validator. -/
theorem C9_idempotent {s u : Str} (h : clean_server_url s = .Ok u) :
    clean_server_url u = .Ok u := by
  obtain ⟨scheme, host, pOpt, hs, hh, hp, rfl⟩ := clean_ok_shape h
  exact clean_render hs hh hp

/-- Witness for C9 at the concrete input `"x.y:80"`. -/
theorem C9_idempotent_witness :
    clean_server_url (str "x.y:80") = .Ok (str "https://x.y:80") ∧
    clean_server_url (str "https://x.y:80") = .Ok (str "https://x.y:80") :=
  ⟨rfl, @C9_idempotent (str "x.y:80") (str "https://x.y:80") rfl⟩

/-! ### Helper lemmas about parse_args assembly -/

theorem parse_args_scan_ok {ts : List Str} {d : Draft} (h : scanArgs initDraft ts = .Ok d) :
    parse_args ts = finishParse d := by
  unfold parse_args
  rw [h]

theorem parse_args_scan_err {ts : List Str} {e : Str} (h : scanArgs initDraft ts = .Err e) :
    parse_args ts = .Err e := by
  unfold parse_args
  rw [h]

theorem finishParse_ok_shape {d : Draft} {cfg : Config} (h : finishParse d = .Ok cfg) :
    ∃ s u p, d.server_url = some s ∧ clean_server_url s = .Ok u ∧
      d.state_file_path = some p ∧ cfg.server_url = u ∧ cfg.state_file_path = p ∧
      cfg.debug = d.debug ∧
      ((d.use_proxy = false ∧ cfg.proxy = none) ∨
       (d.use_proxy = true ∧
        ∃ hp, parse_proxy_addr (d.proxy_addr.getD DEFAULT_PROXY_ADDR) = .Ok hp ∧
          cfg.proxy = some ⟨d.proxy_type, hp.1, hp.2, d.proxy_user, d.proxy_pass⟩)) := by
  unfold finishParse at h
  split at h
  · cases h
  · rename_i s hs
    split at h
    · cases h
    · rename_i u hc
      split at h
      · cases h
      · rename_i p hst
        split at h
        · rename_i hu
          split at h
          · cases h
          · rename_i hp0 hpp
            injection h with h2
            refine ⟨s, u, p, hs, hc, hst, by rw [← h2], by rw [← h2], by rw [← h2],
              Or.inr ⟨hu, hp0, hpp, by rw [← h2]⟩⟩
        · rename_i hu
          injection h with h2
          have hufalse : d.use_proxy = false := by
            revert hu
            cases d.use_proxy <;> simp
          exact ⟨s, u, p, hs, hc, hst, by rw [← h2], by rw [← h2], by rw [← h2],
            Or.inl ⟨hufalse, by rw [← h2]⟩⟩

/-- Claim C1 counterexample: `["--server", "--help"]` contains the token
`--help`, yet `--help` is consumed as the value of `--server` and the parse
returns a hostname validation error rather than the help sentinel. -/
theorem C1_counterexample :
    (str "--help") ∈ [str "--server", str "--help"] ∧
    parse_args [str "--server", str "--help"] =
      .Err (str "hostname must contain a dot unless 'localhost'") ∧
    parse_args [str "--server", str "--help"] ≠ .Err (str "help") := by
  refine ⟨by decide, rfl, by decide⟩

/-- Claim C1 (amended): `--help` (or `-h`) yields the distinguished help
sentinel when it is scanned as a flag, i.e. not consumed as the value of a
preceding value-taking flag: for every token sequence `pre ++ [tok] ++ suf`
where the scanner completes `pre` successfully, `parse_args` returns the help
sentinel regardless of `suf` and of the validity of the other tokens. -/
theorem C1_help_flag (pre suf : List Str) (tok : Str) (d : Draft)
    (htok : tok = str "--help" ∨ tok = str "-h")
    (h : scanArgs initDraft pre = .Ok d) :
    parse_args (pre ++ tok :: suf) = .Err (str "help") := by
  have hs : scanArgs initDraft (pre ++ tok :: suf) = .Err (str "help") := by
    rw [scanArgs_append initDraft pre d (tok :: suf) h]
    rcases htok with rfl | rfl
    · exact scan_help d suf
    · exact scan_h d suf
  exact parse_args_scan_err hs

/-- Witness for C1 (amended) at the one-token sequence `["--help"]`. -/
theorem C1_help_flag_witness : parse_args [str "--help"] = .Err (str "help") :=
  C1_help_flag [] [] (str "--help") initDraft (Or.inl rfl) rfl

/-- Claim C2 counterexample: in
`["--server", "a.b", "--state-file", "--use-proxy"]` the token `--use-proxy`
appears (as the value of `--state-file`), the parse succeeds, and yet the
configuration has no proxy — so "proxy is Some iff the token `--use-proxy`
appeared" is false as stated. -/
theorem C2_counterexample :
    (str "--use-proxy") ∈ [str "--server", str "a.b", str "--state-file", str "--use-proxy"] ∧
    parse_args [str "--server", str "a.b", str "--state-file", str "--use-proxy"] =
      .Ok ⟨str "https://a.b", str "--use-proxy", none, false⟩ ∧
    (Config.mk (str "https://a.b") (str "--use-proxy") none false).proxy = none := by
  refine ⟨by decide, rfl, rfl⟩

/-- Claim C2 (amended): for every token sequence on which `parse_args`
succeeds, the configuration's proxy field is `Some` if and only if
`--use-proxy` was scanned as a flag (the scanner's `use_proxy` field; an
occurrence consumed as another flag's value does not count); and when
`use_proxy` is set with no scanned `--proxy-addr`, the proxy is built from the
default address with host `"127.0.0.1"`, port `9050`, the scanned proxy kind
(`Socks5` when `--proxy-type` was absent), and the scanned credentials. -/
theorem C2_proxy_gating (ts : List Str) (d : Draft) (cfg : Config)
    (hscan : scanArgs initDraft ts = .Ok d) (hok : parse_args ts = .Ok cfg) :
    (cfg.proxy.isSome = d.use_proxy) ∧
    (d.use_proxy = true → d.proxy_addr = none →
      cfg.proxy = some ⟨d.proxy_type, str "127.0.0.1", 9050, d.proxy_user, d.proxy_pass⟩) := by
  rw [parse_args_scan_ok hscan] at hok
  obtain ⟨s, u, p, hs, hc, hst, h1, h2, h3, hpx⟩ := finishParse_ok_shape hok
  rcases hpx with ⟨hfalse, hnone⟩ | ⟨htrue, hp0, hpp, hsome⟩
  · constructor
    · rw [hnone, hfalse]
      rfl
    · intro ht
      rw [ht] at hfalse
      cases hfalse
  · constructor
    · rw [hsome, htrue]
      rfl
    · intro ht haddr
      rw [haddr] at hpp
      have hcomp : parse_proxy_addr ((none : Option Str).getD DEFAULT_PROXY_ADDR) =
          .Ok (str "127.0.0.1", 9050) := rfl
      rw [hcomp] at hpp
      injection hpp with h4
      rw [hsome, ← h4]

/-- Witness for C2 (amended) at
`["--server", "a.b", "--state-file", "f", "--use-proxy"]`. -/
theorem C2_proxy_gating_witness :
    ((Config.mk (str "https://a.b") (str "f")
        (some ⟨ProxyType.Socks5, str "127.0.0.1", 9050, none, none⟩) false).proxy.isSome =
      (Draft.mk (some (str "a.b")) (some (str "f")) true ProxyType.Socks5
        none none none false).use_proxy) ∧
    ((Draft.mk (some (str "a.b")) (some (str "f")) true ProxyType.Socks5
        none none none false).use_proxy = true →
     (Draft.mk (some (str "a.b")) (some (str "f")) true ProxyType.Socks5
        none none none false).proxy_addr = none →
     (Config.mk (str "https://a.b") (str "f")
        (some ⟨ProxyType.Socks5, str "127.0.0.1", 9050, none, none⟩) false).proxy =
       some ⟨ProxyType.Socks5, str "127.0.0.1", 9050, none, none⟩) :=
  C2_proxy_gating [str "--server", str "a.b", str "--state-file", str "f", str "--use-proxy"]
    (Draft.mk (some (str "a.b")) (some (str "f")) true ProxyType.Socks5 none none none false)
    (Config.mk (str "https://a.b") (str "f")
      (some ⟨ProxyType.Socks5, str "127.0.0.1", 9050, none, none⟩) false)
    rfl rfl

/-- Claim C3: post-scan validation short-circuits in the fixed order server
URL, then state-file presence, then proxy address.  For every token sequence
that scans without error: a missing `--server` gives exactly
`"--server is required"` (even when `--state-file` is also missing); an
invalid server URL propagates the validator's error verbatim (even when
`--state-file` is missing); `"--state-file is required"` occurs only when the
server URL validated; and an error outcome never coexists with a
configuration. -/
theorem C3_validation_order (ts : List Str) (d : Draft)
    (h : scanArgs initDraft ts = .Ok d) :
    (d.server_url = none → parse_args ts = .Err (str "--server is required")) ∧
    (∀ s e, d.server_url = some s → clean_server_url s = .Err e →
      parse_args ts = .Err e) ∧
    (parse_args ts = .Err (str "--state-file is required") →
      d.state_file_path = none ∧ ∃ s u, d.server_url = some s ∧ clean_server_url s = .Ok u) ∧
    (∀ e cfg, parse_args ts = .Err e → parse_args ts ≠ .Ok cfg) := by
  have hpa := parse_args_scan_ok h
  refine ⟨?_, ?_, ?_, ?_⟩
  · intro hs
    rw [hpa]
    unfold finishParse
    rw [hs]
  · intro s e hs hc
    rw [hpa]
    unfold finishParse
    rw [hs]
    simp only []
    rw [hc]
  · intro herr
    rw [hpa] at herr
    unfold finishParse at herr
    split at herr
    · injection herr with h2
      exact absurd h2 (by decide)
    · rename_i s hs
      split at herr
      · rename_i e hc
        injection herr with h2
        exact absurd h2 (clean_err_ne_state hc)
      · rename_i u hc
        split at herr
        · rename_i hst
          exact ⟨hst, s, u, hs, hc⟩
        · rename_i p hst
          split at herr
          · split at herr
            · injection herr with h2
              exact absurd h2 (ne_of_head (by decide))
            · cases herr
          · cases herr
  · intro e cfg herr hok
    rw [herr] at hok
    exact RustResult.noConfusion hok

/-- Witness for C3 at the empty token sequence (both flags missing). -/
theorem C3_validation_order_witness :
    parse_args ([] : List Str) = .Err (str "--server is required") :=
  (C3_validation_order [] initDraft rfl).1 rfl

end Coldwire
